import Mathlib

/-!
Shallow embedding of `src/server/server.js` (EDP-Website backend relay).

The server is an Express app whose handlers make a strictly sequential
chain of outbound `fetch` calls to the upstream APS service.  We model:

* upstream responses as `HttpResponse` (status code plus body text), with
  `res.ok` meaning status in [200, 300) as in the WHATWG fetch spec;
* the environment configuration (`process.env`) as `Config`, where an
  environment variable is `Option String` (`none` models an unset
  variable; JS truthiness also treats `some ""` as missing);
* each outbound call by a descriptor `UpstreamCall`, so that theorems can
  speak about which calls a handler performed and with which parameters;
* the stubbed upstream by a `Stubs` record holding one canned response
  per step (the fields a handler reads out of the parsed JSON bodies are
  carried alongside: the token bundle's access_token, the upload
  response's objectId, the manifest JSON);
* a handler result as `HttpResult`: the HTTP status sent to the client,
  the JSON body sent (`RespBody`), and the list of upstream calls made.

Errors thrown in JS are modelled as `Except AppError`; the central error
middleware (`err.status || 500` rendered as the `error` JSON field) is
`renderError`.  `Date.now()` is an explicit `now : Nat` parameter.
JSON (de)serialisation is modelled as the identity on the carried value;
headers other than the region header are not observable in any claim and
are not modelled.
-/

namespace EdpServer

/-- An upstream HTTP response: status code and body text.  For steps whose
body is parsed as JSON, the parsed fields the server reads appear as
separate stub fields. -/
structure HttpResponse where
  status : Nat
  bodyText : String
  deriving DecidableEq

/-- JS fetch `res.ok`: status in the inclusive range 200..299. -/
def HttpResponse.ok (r : HttpResponse) : Bool :=
  decide (200 ≤ r.status) && decide (r.status < 300)

/-- The parsed token bundle; the server only ever reads `access_token`. -/
structure TokenJson where
  access_token : String
  deriving DecidableEq

/-- Server configuration drawn from `process.env`.  An `Option String`
field is `none` when the variable is unset. -/
structure Config where
  clientId : Option String
  clientSecret : Option String
  bucketKey : Option String
  region : String
  deriving DecidableEq

deriving instance DecidableEq for Except

/-- Embedding of JS String.prototype.toLowerCase as a character-wise map
(the bucket keys it is applied to are ASCII). -/
def toLowerString (s : String) : String :=
  String.mk (s.data.map Char.toLower)

/-- JS truthiness test used by the source (`!APS_CLIENT_ID` etc.): an env
value is falsy when unset or the empty string. -/
def falsy : Option String → Bool
  | none => true
  | some s => s == ""

/-- Names of the required env vars that are missing, in the push order of
`requireEnv` in the source. -/
def missingNames (cfg : Config) : List String :=
  (if falsy cfg.clientId then ["APS_CLIENT_ID"] else []) ++
  (if falsy cfg.clientSecret then ["APS_CLIENT_SECRET"] else []) ++
  (if falsy cfg.bucketKey then ["APS_BUCKET_KEY"] else [])

/-- An error thrown by a handler: the message, and the `status` property
when the source sets one (`error.status = ...`). -/
structure AppError where
  message : String
  status : Option Nat
  deriving DecidableEq

/-- The message built by `requireEnv` for a missing-configuration error. -/
def missingEnvMessage (cfg : Config) : String :=
  "Missing env vars: " ++ String.intercalate ", " (missingNames cfg)

/-- The `requireEnv` check: throws (returns `some` error, with
`status = 500`) exactly when at least one required variable is missing. -/
def requireEnvCheck (cfg : Config) : Option AppError :=
  if 0 < (missingNames cfg).length then
    some ⟨missingEnvMessage cfg, some 500⟩
  else
    none

/-- Descriptor of one outbound upstream call, carrying the parameters the
claims observe: the (lowercased) bucket key in bucket URLs, the policy key
and region header on bucket creation, the URL-encoded object name on
upload, the job urn, and the URL-encoded urn in the manifest path. -/
inductive UpstreamCall where
  | token : UpstreamCall
  | bucketDetails (bucketKey : String) : UpstreamCall
  | bucketCreate (bucketKey policyKey region : String) : UpstreamCall
  | upload (bucketKey encodedObjectName : String) : UpstreamCall
  | jobStart (urn : String) : UpstreamCall
  | manifest (encodedUrn : String) : UpstreamCall
  deriving DecidableEq

/-- Canned upstream responses for one request, one per step of the chain,
together with the JSON fields the server reads from successful bodies. -/
structure Stubs where
  tokenResp : HttpResponse
  tokenJson : TokenJson
  detailsResp : HttpResponse
  createResp : HttpResponse
  uploadResp : HttpResponse
  uploadObjectId : String
  jobResp : HttpResponse
  manifestResp : HttpResponse
  deriving DecidableEq

/-- The JSON body a handler sends to the client. -/
inductive RespBody where
  | jsonUrn (urn : String) : RespBody
  | jsonError (message : String) : RespBody
  | jsonToken (bundle : TokenJson) : RespBody
  | jsonManifest (body : String) : RespBody
  deriving DecidableEq

/-- The observable outcome of one handler invocation: HTTP status, JSON
body, and the upstream calls made, in order. -/
structure HttpResult where
  status : Nat
  body : RespBody
  calls : List UpstreamCall
  deriving DecidableEq

/-- The central error middleware status choice, `err.status || 500`:
JS `||` falls back on a missing or zero (falsy) status. -/
def jsStatusOr500 : Option Nat → Nat
  | none => 500
  | some s => if s = 0 then 500 else s

/-- The central error middleware: renders a thrown error as
status `err.status || 500` with JSON body containing the message. -/
def renderError (e : AppError) (calls : List UpstreamCall) : HttpResult :=
  ⟨jsStatusOr500 e.status, RespBody.jsonError e.message, calls⟩

/-- Embedding of `getAccessToken`: runs `requireEnv`, then POSTs the token
request; a non-ok response throws with the upstream status carried on the
error and the body text in the message. -/
def getAccessToken (cfg : Config) (st : Stubs) :
    Except AppError TokenJson × List UpstreamCall :=
  match requireEnvCheck cfg with
  | some e => (Except.error e, [])
  | none =>
    if st.tokenResp.ok then
      (Except.ok st.tokenJson, [UpstreamCall.token])
    else
      (Except.error
        ⟨"Token request failed: " ++ toString st.tokenResp.status ++ " " ++
          st.tokenResp.bodyText, some st.tokenResp.status⟩,
        [UpstreamCall.token])

/-- Embedding of `ensureBucket`: a details lookup; ok means done; a
non-404 failure throws; a 404 triggers a create call with policy key
"persistent" and the region header, whose failure throws.  Neither thrown
error sets a `status` property in the source. -/
def ensureBucket (rawBucketKey region : String) (st : Stubs) :
    Except AppError Unit × List UpstreamCall :=
  let bucketKey := toLowerString rawBucketKey
  if st.detailsResp.ok then
    (Except.ok (), [UpstreamCall.bucketDetails bucketKey])
  else if st.detailsResp.status ≠ 404 then
    (Except.error
      ⟨"Bucket check failed: " ++ toString st.detailsResp.status ++ " " ++
        st.detailsResp.bodyText, none⟩,
      [UpstreamCall.bucketDetails bucketKey])
  else
    let calls := [UpstreamCall.bucketDetails bucketKey,
      UpstreamCall.bucketCreate bucketKey "persistent" region]
    if st.createResp.ok then
      (Except.ok (), calls)
    else
      (Except.error
        ⟨"Bucket create failed: " ++ toString st.createResp.status ++ " " ++
          st.createResp.bodyText, none⟩,
        calls)

/-- Characters the upload filename sanitizer keeps, i.e. the regex class
[a-zA-Z0-9._-] from the source. -/
def isAllowedChar (c : Char) : Bool :=
  ('a' ≤ c && c ≤ 'z') || ('A' ≤ c && c ≤ 'Z') || ('0' ≤ c && c ≤ '9') ||
  c == '.' || c == '_' || c == '-'

/-- Embedding of the replace call: every character outside the allowed
class becomes an underscore. -/
def sanitizeName (s : String) : String :=
  String.mk (s.data.map (fun c => if isAllowedChar c then c else '_'))

/-- The stored object name: current epoch milliseconds, a dash, and the
sanitized original filename. -/
def mkObjectName (now : Nat) (originalname : String) : String :=
  toString now ++ "-" ++ sanitizeName originalname

/-- UTF-8 encoding of one character (byte values as naturals). -/
def utf8Bytes (c : Char) : List Nat :=
  let n := c.toNat
  if n < 128 then [n]
  else if n < 2048 then [192 + n / 64, 128 + n % 64]
  else if n < 65536 then [224 + n / 4096, 128 + n / 64 % 64, 128 + n % 64]
  else [240 + n / 262144, 128 + n / 4096 % 64, 128 + n / 64 % 64, 128 + n % 64]

/-- UTF-8 encoding of a string, as Node's Buffer.from produces it. -/
def utf8OfString (s : String) : List Nat :=
  s.data.flatMap utf8Bytes

/-- Uppercase hexadecimal digit for a value below 16. -/
def hexUpper (n : Nat) : Char :=
  "0123456789ABCDEF".data.getD n 'X'

/-- Characters encodeURIComponent leaves unescaped. -/
def uriUnescaped (c : Char) : Bool :=
  ('a' ≤ c && c ≤ 'z') || ('A' ≤ c && c ≤ 'Z') || ('0' ≤ c && c ≤ '9') ||
  c == '-' || c == '_' || c == '.' || c == '!' || c == '~' || c == '*' ||
  c == '(' || c == ')' || c == Char.ofNat 39

/-- Percent-encoding of one byte. -/
def pctByte (b : Nat) : List Char :=
  ['%', hexUpper (b / 16), hexUpper (b % 16)]

/-- Embedding of JS encodeURIComponent: keeps unescaped characters and
percent-encodes the UTF-8 bytes of every other character. -/
def encodeURIComponent (s : String) : String :=
  String.mk (s.data.flatMap
    (fun c => if uriUnescaped c then [c] else (utf8Bytes c).flatMap pctByte))

/-- The base64 alphabet in index order. -/
def base64Alphabet : List Char :=
  "ABCDEFGHIJKLMNOPQRSTUVWXYZabcdefghijklmnopqrstuvwxyz0123456789+/".data

/-- Character of the base64 alphabet at a six-bit value. -/
def b64 (n : Nat) : Char :=
  base64Alphabet.getD n 'A'

/-- Standard (RFC 4648, padded) base64 encoding of a byte list, as Node's
Buffer.toString with base64 produces it. -/
def base64Encode : List Nat → List Char
  | [] => []
  | [a] => [b64 (a / 4), b64 (a % 4 * 16), '=', '=']
  | [a, b] => [b64 (a / 4), b64 (a % 4 * 16 + b / 16), b64 (b % 16 * 4), '=']
  | a :: b :: c :: rest =>
    b64 (a / 4) :: b64 (a % 4 * 16 + b / 16) :: b64 (b % 16 * 4 + c / 64) ::
      b64 (c % 64) :: base64Encode rest

/-- Embedding of Buffer.from(s).toString with base64: base64 of the UTF-8
bytes of the string. -/
def base64String (s : String) : String :=
  String.mk (base64Encode (utf8OfString s))

/-- Embedding of `uploadToBucket`: builds the timestamped sanitized object
name, PUTs it (URL-encoded) into the lowercased bucket, and on success
returns the `objectId` field of the response JSON.  A failure throws
without setting a `status` property. -/
def uploadToBucket (rawBucketKey : String) (now : Nat) (originalname : String)
    (st : Stubs) : Except AppError String × List UpstreamCall :=
  let objectName := mkObjectName now originalname
  let call := UpstreamCall.upload (toLowerString rawBucketKey)
    (encodeURIComponent objectName)
  if st.uploadResp.ok then
    (Except.ok st.uploadObjectId, [call])
  else
    (Except.error
      ⟨"Upload failed: " ++ toString st.uploadResp.status ++ " " ++
        st.uploadResp.bodyText, none⟩,
      [call])

/-- Embedding of `startTranslation`: POSTs the job request for the urn; a
failure throws without setting a `status` property. -/
def startTranslation (urn : String) (st : Stubs) :
    Except AppError Unit × List UpstreamCall :=
  if st.jobResp.ok then
    (Except.ok (), [UpstreamCall.jobStart urn])
  else
    (Except.error
      ⟨"Translate failed: " ++ toString st.jobResp.status ++ " " ++
        st.jobResp.bodyText, none⟩,
      [UpstreamCall.jobStart urn])

/-- Embedding of the GET token endpoint: returns the token bundle as JSON
on success; a thrown error goes to the error middleware. -/
def tokenEndpoint (cfg : Config) (st : Stubs) : HttpResult :=
  match getAccessToken cfg st with
  | (Except.ok bundle, calls) => ⟨200, RespBody.jsonToken bundle, calls⟩
  | (Except.error e, calls) => renderError e calls

/-- Embedding of the POST upload-translate endpoint.  `file` is the
multipart file field (`some originalname`; the buffer itself is opaque to
every claim).  Missing file answers 400 immediately; otherwise the chain
token, ensure-bucket, upload, base64 urn, start-translation runs, and the
success body is the urn object. -/
def uploadTranslate (cfg : Config) (file : Option String) (now : Nat)
    (st : Stubs) : HttpResult :=
  match file with
  | none => ⟨400, RespBody.jsonError "No file uploaded.", []⟩
  | some originalname =>
    match getAccessToken cfg st with
    | (Except.error e, calls) => renderError e calls
    | (Except.ok _, c1) =>
      let bk := cfg.bucketKey.getD ""
      match ensureBucket bk cfg.region st with
      | (Except.error e, c2) => renderError e (c1 ++ c2)
      | (Except.ok _, c2) =>
        match uploadToBucket bk now originalname st with
        | (Except.error e, c3) => renderError e (c1 ++ c2 ++ c3)
        | (Except.ok objectId, c3) =>
          let urn := base64String objectId
          match startTranslation urn st with
          | (Except.error e, c4) => renderError e (c1 ++ c2 ++ c3 ++ c4)
          | (Except.ok _, c4) =>
            ⟨200, RespBody.jsonUrn urn, c1 ++ c2 ++ c3 ++ c4⟩

/-- Embedding of the GET manifest endpoint: after the token step it GETs
the manifest at the URL-encoded urn and relays the upstream status and
JSON body verbatim. -/
def manifestEndpoint (cfg : Config) (urn : String) (st : Stubs) : HttpResult :=
  match getAccessToken cfg st with
  | (Except.error e, calls) => renderError e calls
  | (Except.ok _, c1) =>
    ⟨st.manifestResp.status, RespBody.jsonManifest st.manifestResp.bodyText,
      c1 ++ [UpstreamCall.manifest (encodeURIComponent urn)]⟩

/-- Outcome of the cors origin callback: accept corresponds to
callback(null, true) and reject to callback(new Error(...)). -/
inductive CorsDecision where
  | accept : CorsDecision
  | reject : CorsDecision
  deriving DecidableEq

/-- Embedding of the cors origin callback.  The request origin is
`none` when the request carries no Origin header; JS truthiness also
treats an empty-string origin as absent. -/
def corsOriginCheck (allowedOrigins : List String) (origin : Option String) :
    CorsDecision :=
  if falsy origin || allowedOrigins.isEmpty then CorsDecision.accept
  else if allowedOrigins.contains (origin.getD "") then CorsDecision.accept
  else CorsDecision.reject

/-- Whitespace as JS String.prototype.trim removes it (WhiteSpace and
LineTerminator code points). -/
def jsWhitespace (c : Char) : Bool :=
  [Char.ofNat 9, Char.ofNat 10, Char.ofNat 11, Char.ofNat 12, Char.ofNat 13,
    Char.ofNat 32, Char.ofNat 160, Char.ofNat 5760, Char.ofNat 8192,
    Char.ofNat 8193, Char.ofNat 8194, Char.ofNat 8195, Char.ofNat 8196,
    Char.ofNat 8197, Char.ofNat 8198, Char.ofNat 8199, Char.ofNat 8200,
    Char.ofNat 8201, Char.ofNat 8202, Char.ofNat 8232, Char.ofNat 8233,
    Char.ofNat 8239, Char.ofNat 8287, Char.ofNat 12288,
    Char.ofNat 65279].contains c

/-- JS split with a one-character separator, on character lists. -/
def splitOnComma : List Char → List (List Char)
  | [] => [[]]
  | c :: cs =>
    match splitOnComma cs with
    | [] => [[]]
    | p :: ps => if c = ',' then [] :: p :: ps else (c :: p) :: ps

/-- JS trim on a character list: drop whitespace from both ends. -/
def trimChars (l : List Char) : List Char :=
  (((l.dropWhile jsWhitespace).reverse.dropWhile jsWhitespace)).reverse

/-- Embedding of the allowedOrigins computation: split the configured
value on commas, trim each entry, and drop the falsy (empty) ones. -/
def parseAllowedOrigins (s : String) : List String :=
  (((splitOnComma s.data).map (fun p => String.mk (trimChars p))).filter
    (fun e => e != ""))

/-- Executable matcher for the regex `^\d+-[A-Za-z0-9._-]+$`.  Because a
dash is not a digit, the split between the digit block and the rest is
unique, so maximal munch is complete for this pattern. -/
def objectNamePattern (l : List Char) : Bool :=
  match l.drop (l.takeWhile Char.isDigit).length with
  | [] => false
  | h :: t =>
    !(l.takeWhile Char.isDigit).isEmpty && h == '-' && !t.isEmpty &&
      t.all isAllowedChar

/-- Decimal digit characters of a natural number, most significant first;
this is what Nat.repr produces (proved below). -/
def natChars (n : Nat) : List Char :=
  if _h : n < 10 then [Nat.digitChar n]
  else natChars (n / 10) ++ [Nat.digitChar (n % 10)]
termination_by n
decreasing_by
  exact Nat.div_lt_self (by omega) (by omega)

/-- One step of reading a decimal digit string back into a number. -/
def decValStep (a : Nat) (c : Char) : Nat :=
  a * 10 + (c.toNat - 48)

/-! ## Theorems about the claims -/

/-- C3: a POST to the upload-translate endpoint with no file field is
answered with HTTP 400 and the error body, and no upstream call (token,
bucket, upload, or job) is made. -/
theorem c3_missing_file_rejected (cfg : Config) (now : Nat) (st : Stubs) :
    uploadTranslate cfg none now st =
      ⟨400, RespBody.jsonError "No file uploaded.", []⟩ :=
  rfl

/-- C9: a request that declares no origin at all is always accepted by the
cors origin callback, whatever the configured allow-list, so the allow-list
only restricts requests that declare an origin. -/
theorem c9_no_origin_always_accepted (allowedOrigins : List String) :
    corsOriginCheck allowedOrigins none = CorsDecision.accept :=
  rfl

/-- C7 counterexample: the empty-string origin is not a member of the
non-empty allow-list yet the cors origin callback accepts it (JS treats
the empty origin as falsy), so the claim that every origin not present in
a non-empty allow-list is rejected is false. -/
theorem c7_cors_counterexample :
    ("" ∈ ["http://example.com"] → False) ∧
      corsOriginCheck ["http://example.com"] (some "") = CorsDecision.accept := by
  decide

/-- C7 (amended): every nonempty declared origin not present in a
non-empty allow-list is rejected by the cors origin callback; with an
empty allow-list every origin is accepted; a listed origin is accepted.
Requests with an absent or empty-string declared origin are accepted
unconditionally. -/
theorem c7_amended_cors_allow_list (allowedOrigins : List String) (o : String)
    (ho : o ≠ "") :
    (allowedOrigins ≠ [] → o ∉ allowedOrigins →
      corsOriginCheck allowedOrigins (some o) = CorsDecision.reject)
    ∧ (allowedOrigins = [] →
      corsOriginCheck allowedOrigins (some o) = CorsDecision.accept)
    ∧ (o ∈ allowedOrigins →
      corsOriginCheck allowedOrigins (some o) = CorsDecision.accept) := by
  have hfo : falsy (some o) = false := by
    simpa [falsy] using ho
  refine ⟨?_, ?_, ?_⟩
  · intro hne hnm
    have h2 : allowedOrigins.isEmpty = false := by
      simpa [List.isEmpty_iff] using hne
    have h3 : allowedOrigins.contains o = false := by
      simpa using hnm
    simp [corsOriginCheck, hfo, h2, h3, Option.getD_some]
    exact hnm
  · intro he
    subst he
    simp [corsOriginCheck]
  · intro hm
    have h3 : allowedOrigins.contains o = true := by
      simpa using hm
    cases h2 : allowedOrigins.isEmpty with
    | true => simp [corsOriginCheck, h2]
    | false =>
      simp [corsOriginCheck, hfo, h2, h3, Option.getD_some]
      exact hm

/-- C7 witness: concrete instances of the amended allow-list behaviour. -/
theorem c7_amended_cors_allow_list_witness :
    corsOriginCheck ["http://a.example"] (some "http://b.example") =
        CorsDecision.reject
    ∧ corsOriginCheck [] (some "http://b.example") = CorsDecision.accept
    ∧ corsOriginCheck ["http://b.example"] (some "http://b.example") =
        CorsDecision.accept :=
  ⟨(c7_amended_cors_allow_list ["http://a.example"] "http://b.example"
      (by decide)).1 (by decide) (by decide),
    (c7_amended_cors_allow_list [] "http://b.example" (by decide)).2.1 rfl,
    (c7_amended_cors_allow_list ["http://b.example"] "http://b.example"
      (by decide)).2.2 (by decide)⟩

/-- C6 counterexample: a details lookup answering 204 (neither 200 nor
404) makes ensureBucket a no-op instead of failing, so the details policy
is keyed on any 2xx status, not on exactly 200. -/
theorem c6_counterexample :
    ensureBucket "Bucket" "US"
        ⟨⟨200, ""⟩, ⟨"t"⟩, ⟨204, "no content"⟩, ⟨200, ""⟩, ⟨200, ""⟩, "abc",
          ⟨200, ""⟩, ⟨200, ""⟩⟩ =
      (Except.ok (), [UpstreamCall.bucketDetails "bucket"])
    ∧ (204 ≠ 200 ∧ 204 ≠ 404) :=
  ⟨by decide, by decide⟩

/-- C6 (amended): for every stubbed upstream, if the container details
lookup answers any 2xx status ensureBucket is a no-op; if it answers 404
ensureBucket issues a create call carrying the persistent policy key and
the region header; any non-2xx status other than 404 on the details call,
and any non-2xx on the create call, make it fail with the upstream status
and body text in the error message. -/
theorem c6_amended_ensure_bucket (bk region : String) (st : Stubs) :
    (st.detailsResp.ok = true →
      ensureBucket bk region st =
        (Except.ok (), [UpstreamCall.bucketDetails (toLowerString bk)]))
    ∧ (st.detailsResp.ok = false → st.detailsResp.status ≠ 404 →
      ensureBucket bk region st =
        (Except.error ⟨"Bucket check failed: " ++
            toString st.detailsResp.status ++ " " ++ st.detailsResp.bodyText,
            none⟩,
          [UpstreamCall.bucketDetails (toLowerString bk)]))
    ∧ (st.detailsResp.status = 404 → st.createResp.ok = true →
      ensureBucket bk region st =
        (Except.ok (), [UpstreamCall.bucketDetails (toLowerString bk),
          UpstreamCall.bucketCreate (toLowerString bk) "persistent" region]))
    ∧ (st.detailsResp.status = 404 → st.createResp.ok = false →
      ensureBucket bk region st =
        (Except.error ⟨"Bucket create failed: " ++
            toString st.createResp.status ++ " " ++ st.createResp.bodyText,
            none⟩,
          [UpstreamCall.bucketDetails (toLowerString bk),
            UpstreamCall.bucketCreate (toLowerString bk) "persistent" region])) := by
  refine ⟨?_, ?_, ?_, ?_⟩
  · intro h
    simp [ensureBucket, h]
  · intro h h404
    simp [ensureBucket, h, h404]
  · intro h404 hc
    have hok : st.detailsResp.ok = false := by
      simp [HttpResponse.ok, h404]
    simp [ensureBucket, hok, h404, hc]
  · intro h404 hc
    have hok : st.detailsResp.ok = false := by
      simp [HttpResponse.ok, h404]
    simp [ensureBucket, hok, h404, hc]

/-- C6 witness: the four branches of the amended policy at concrete
stubbed responses. -/
theorem c6_amended_ensure_bucket_witness :
    ensureBucket "Key" "US"
        ⟨⟨200, ""⟩, ⟨"t"⟩, ⟨200, "ok"⟩, ⟨200, ""⟩, ⟨200, ""⟩, "abc",
          ⟨200, ""⟩, ⟨200, ""⟩⟩ =
      (Except.ok (), [UpstreamCall.bucketDetails "key"])
    ∧ ensureBucket "Key" "US"
        ⟨⟨200, ""⟩, ⟨"t"⟩, ⟨403, "forbidden"⟩, ⟨200, ""⟩, ⟨200, ""⟩, "abc",
          ⟨200, ""⟩, ⟨200, ""⟩⟩ =
      (Except.error ⟨"Bucket check failed: 403 forbidden", none⟩,
        [UpstreamCall.bucketDetails "key"])
    ∧ ensureBucket "Key" "US"
        ⟨⟨200, ""⟩, ⟨"t"⟩, ⟨404, "missing"⟩, ⟨200, ""⟩, ⟨200, ""⟩, "abc",
          ⟨200, ""⟩, ⟨200, ""⟩⟩ =
      (Except.ok (), [UpstreamCall.bucketDetails "key",
        UpstreamCall.bucketCreate "key" "persistent" "US"])
    ∧ ensureBucket "Key" "US"
        ⟨⟨200, ""⟩, ⟨"t"⟩, ⟨404, "missing"⟩, ⟨409, "conflict"⟩, ⟨200, ""⟩,
          "abc", ⟨200, ""⟩, ⟨200, ""⟩⟩ =
      (Except.error ⟨"Bucket create failed: 409 conflict", none⟩,
        [UpstreamCall.bucketDetails "key",
          UpstreamCall.bucketCreate "key" "persistent" "US"]) := by
  refine ⟨?_, ?_, ?_, ?_⟩
  · exact ((c6_amended_ensure_bucket "Key" "US"
      ⟨⟨200, ""⟩, ⟨"t"⟩, ⟨200, "ok"⟩, ⟨200, ""⟩, ⟨200, ""⟩, "abc",
        ⟨200, ""⟩, ⟨200, ""⟩⟩).1 (by decide)).trans (by decide)
  · exact ((c6_amended_ensure_bucket "Key" "US"
      ⟨⟨200, ""⟩, ⟨"t"⟩, ⟨403, "forbidden"⟩, ⟨200, ""⟩, ⟨200, ""⟩, "abc",
        ⟨200, ""⟩, ⟨200, ""⟩⟩).2.1 (by decide) (by decide)).trans (by decide)
  · exact ((c6_amended_ensure_bucket "Key" "US"
      ⟨⟨200, ""⟩, ⟨"t"⟩, ⟨404, "missing"⟩, ⟨200, ""⟩, ⟨200, ""⟩, "abc",
        ⟨200, ""⟩, ⟨200, ""⟩⟩).2.2.1 (by decide) (by decide)).trans (by decide)
  · exact ((c6_amended_ensure_bucket "Key" "US"
      ⟨⟨200, ""⟩, ⟨"t"⟩, ⟨404, "missing"⟩, ⟨409, "conflict"⟩, ⟨200, ""⟩,
        "abc", ⟨200, ""⟩, ⟨200, ""⟩⟩).2.2.2 (by decide) (by decide)).trans
      (by decide)

/-- C1: whenever the token step succeeds, the container details lookup
answers 404 and the create call succeeds, the upload succeeds with object
identifier `uploadObjectId`, and the job start succeeds, the POST
upload-translate endpoint responds 200 with a JSON body whose single field
(the resource locator, named `urn` in the source) is the base64 encoding
of that object identifier. -/
theorem c1_upload_translate_success (cfg : Config) (name : String)
    (now : Nat) (st : Stubs)
    (henv : missingNames cfg = [])
    (htok : st.tokenResp.ok = true)
    (hdet : st.detailsResp.status = 404)
    (hcre : st.createResp.ok = true)
    (hupl : st.uploadResp.ok = true)
    (hjob : st.jobResp.ok = true) :
    (uploadTranslate cfg (some name) now st).status = 200 ∧
    (uploadTranslate cfg (some name) now st).body =
      RespBody.jsonUrn (base64String st.uploadObjectId) := by
  have hreq : requireEnvCheck cfg = none := by
    simp [requireEnvCheck, henv]
  have hdok : st.detailsResp.ok = false := by
    simp [HttpResponse.ok, hdet]
  simp [uploadTranslate, getAccessToken, ensureBucket, uploadToBucket,
    startTranslation, hreq, htok, hdok, hdet, hcre, hupl, hjob]

/-- C1 witness: the spec's concrete chain with object id "abc" yields the
locator base64("abc") = "YWJj". -/
theorem c1_upload_translate_success_witness :
    (uploadTranslate ⟨some "id", some "secret", some "Bucket", "US"⟩
        (some "model.rvt") 7
        ⟨⟨200, "tok"⟩, ⟨"at"⟩, ⟨404, "not found"⟩, ⟨200, ""⟩, ⟨200, ""⟩,
          "abc", ⟨200, ""⟩, ⟨200, ""⟩⟩).status = 200
    ∧ (uploadTranslate ⟨some "id", some "secret", some "Bucket", "US"⟩
        (some "model.rvt") 7
        ⟨⟨200, "tok"⟩, ⟨"at"⟩, ⟨404, "not found"⟩, ⟨200, ""⟩, ⟨200, ""⟩,
          "abc", ⟨200, ""⟩, ⟨200, ""⟩⟩).body = RespBody.jsonUrn "YWJj" := by
  have h := c1_upload_translate_success
    ⟨some "id", some "secret", some "Bucket", "US"⟩ "model.rvt" 7
    ⟨⟨200, "tok"⟩, ⟨"at"⟩, ⟨404, "not found"⟩, ⟨200, ""⟩, ⟨200, ""⟩,
      "abc", ⟨200, ""⟩, ⟨200, ""⟩⟩
    (by decide) (by decide) (by decide) (by decide) (by decide) (by decide)
  exact ⟨h.1, h.2.trans (by decide)⟩

/-- C8: whenever the configuration is complete and the token step
succeeds, the manifest endpoint sends exactly one manifest call whose path
component is the URL-escaped locator, and relays the upstream JSON body
and HTTP status code unchanged to the caller, whatever they are. -/
theorem c8_manifest_relay (cfg : Config) (urn : String) (st : Stubs)
    (henv : missingNames cfg = [])
    (htok : st.tokenResp.ok = true) :
    manifestEndpoint cfg urn st =
      ⟨st.manifestResp.status,
        RespBody.jsonManifest st.manifestResp.bodyText,
        [UpstreamCall.token,
          UpstreamCall.manifest (encodeURIComponent urn)]⟩ := by
  have hreq : requireEnvCheck cfg = none := by
    simp [requireEnvCheck, henv]
  simp [manifestEndpoint, getAccessToken, hreq, htok]

/-- C8 witness: the spec's example, a 202 in-progress manifest relayed
verbatim, with a locator whose URL-escaping is visible (its padding
becomes percent-encoded). -/
theorem c8_manifest_relay_witness :
    manifestEndpoint ⟨some "id", some "secret", some "Bucket", "US"⟩
        "dXJuOmFiYw=="
        ⟨⟨200, "tok"⟩, ⟨"at"⟩, ⟨200, ""⟩, ⟨200, ""⟩, ⟨200, ""⟩, "abc",
          ⟨200, ""⟩, ⟨202, "\x7b\"status\":\"inprogress\"\x7d"⟩⟩ =
      ⟨202, RespBody.jsonManifest "\x7b\"status\":\"inprogress\"\x7d",
        [UpstreamCall.token,
          UpstreamCall.manifest "dXJuOmFiYw%3D%3D"]⟩ :=
  (c8_manifest_relay ⟨some "id", some "secret", some "Bucket", "US"⟩
    "dXJuOmFiYw=="
    ⟨⟨200, "tok"⟩, ⟨"at"⟩, ⟨200, ""⟩, ⟨200, ""⟩, ⟨200, ""⟩, "abc",
      ⟨200, ""⟩, ⟨202, "\x7b\"status\":\"inprogress\"\x7d"⟩⟩
    (by decide) (by decide)).trans (by decide)

/-- C2 counterexample: a container details lookup answering 403 makes the
upload-translate endpoint respond 500, not 403, because the source only
attaches the upstream status to token-step errors; so the claim that
every step propagates the upstream status as the HTTP status is false. -/
theorem c2_counterexample :
    (uploadTranslate ⟨some "id", some "secret", some "Bucket", "US"⟩
        (some "model.rvt") 7
        ⟨⟨200, "tok"⟩, ⟨"at"⟩, ⟨403, "forbidden"⟩, ⟨200, ""⟩, ⟨200, ""⟩,
          "abc", ⟨200, ""⟩, ⟨200, ""⟩⟩).status = 500
    ∧ ((uploadTranslate ⟨some "id", some "secret", some "Bucket", "US"⟩
        (some "model.rvt") 7
        ⟨⟨200, "tok"⟩, ⟨"at"⟩, ⟨403, "forbidden"⟩, ⟨200, ""⟩, ⟨200, ""⟩,
          "abc", ⟨200, ""⟩, ⟨200, ""⟩⟩).status = 403 → False) := by
  decide

/-- C2 (amended): at every step of the chain, a non-2xx upstream response
puts the upstream status code and the upstream body text into the error
message; the token step is additionally rendered with the upstream status
code as the HTTP status (the error middleware falls back to 500 on a zero
status), while failures of the container details, container create,
upload, and job start steps are rendered with HTTP status 500 regardless
of the upstream status. -/
theorem c2_amended_error_rendering (cfg : Config) (name : String)
    (now : Nat) (st : Stubs) (henv : missingNames cfg = []) :
    (st.tokenResp.ok = false →
      uploadTranslate cfg (some name) now st =
        ⟨jsStatusOr500 (some st.tokenResp.status),
          RespBody.jsonError ("Token request failed: " ++
            toString st.tokenResp.status ++ " " ++ st.tokenResp.bodyText),
          [UpstreamCall.token]⟩)
    ∧ (st.tokenResp.ok = true → st.detailsResp.ok = false →
        st.detailsResp.status ≠ 404 →
      (uploadTranslate cfg (some name) now st).status = 500 ∧
      (uploadTranslate cfg (some name) now st).body =
        RespBody.jsonError ("Bucket check failed: " ++
          toString st.detailsResp.status ++ " " ++ st.detailsResp.bodyText))
    ∧ (st.tokenResp.ok = true → st.detailsResp.status = 404 →
        st.createResp.ok = false →
      (uploadTranslate cfg (some name) now st).status = 500 ∧
      (uploadTranslate cfg (some name) now st).body =
        RespBody.jsonError ("Bucket create failed: " ++
          toString st.createResp.status ++ " " ++ st.createResp.bodyText))
    ∧ (st.tokenResp.ok = true →
        (st.detailsResp.ok = true ∨
          (st.detailsResp.status = 404 ∧ st.createResp.ok = true)) →
        st.uploadResp.ok = false →
      (uploadTranslate cfg (some name) now st).status = 500 ∧
      (uploadTranslate cfg (some name) now st).body =
        RespBody.jsonError ("Upload failed: " ++
          toString st.uploadResp.status ++ " " ++ st.uploadResp.bodyText))
    ∧ (st.tokenResp.ok = true →
        (st.detailsResp.ok = true ∨
          (st.detailsResp.status = 404 ∧ st.createResp.ok = true)) →
        st.uploadResp.ok = true → st.jobResp.ok = false →
      (uploadTranslate cfg (some name) now st).status = 500 ∧
      (uploadTranslate cfg (some name) now st).body =
        RespBody.jsonError ("Translate failed: " ++
          toString st.jobResp.status ++ " " ++ st.jobResp.bodyText)) := by
  have hreq : requireEnvCheck cfg = none := by
    simp [requireEnvCheck, henv]
  refine ⟨?_, ?_, ?_, ?_, ?_⟩
  · intro h
    simp [uploadTranslate, getAccessToken, hreq, h, renderError]
  · intro ht hd h404
    simp [uploadTranslate, getAccessToken, ensureBucket, hreq, ht, hd, h404,
      renderError, jsStatusOr500]
  · intro ht h404 hc
    have hdok : st.detailsResp.ok = false := by
      simp [HttpResponse.ok, h404]
    simp [uploadTranslate, getAccessToken, ensureBucket, hreq, ht, hdok,
      h404, hc, renderError, jsStatusOr500]
  · intro ht he hu
    rcases he with hd | ⟨h404, hc⟩
    · simp [uploadTranslate, getAccessToken, ensureBucket, uploadToBucket,
        hreq, ht, hd, hu, renderError, jsStatusOr500]
    · have hdok : st.detailsResp.ok = false := by
        simp [HttpResponse.ok, h404]
      simp [uploadTranslate, getAccessToken, ensureBucket, uploadToBucket,
        hreq, ht, hdok, h404, hc, hu, renderError, jsStatusOr500]
  · intro ht he hu hj
    rcases he with hd | ⟨h404, hc⟩
    · simp [uploadTranslate, getAccessToken, ensureBucket, uploadToBucket,
        startTranslation, hreq, ht, hd, hu, hj, renderError, jsStatusOr500]
    · have hdok : st.detailsResp.ok = false := by
        simp [HttpResponse.ok, h404]
      simp [uploadTranslate, getAccessToken, ensureBucket, uploadToBucket,
        startTranslation, hreq, ht, hdok, h404, hc, hu, hj, renderError,
        jsStatusOr500]

/-- C2 witness: two concrete failures of the amended rendering: a 401
token failure rendered with status 401, and an upload failure after a
successful details lookup rendered with status 500. -/
theorem c2_amended_error_rendering_witness :
    uploadTranslate ⟨some "id", some "secret", some "Bucket", "US"⟩
        (some "model.rvt") 7
        ⟨⟨401, "bad creds"⟩, ⟨"at"⟩, ⟨200, ""⟩, ⟨200, ""⟩, ⟨200, ""⟩, "abc",
          ⟨200, ""⟩, ⟨200, ""⟩⟩ =
      ⟨401, RespBody.jsonError "Token request failed: 401 bad creds",
        [UpstreamCall.token]⟩
    ∧ (uploadTranslate ⟨some "id", some "secret", some "Bucket", "US"⟩
        (some "model.rvt") 7
        ⟨⟨200, "tok"⟩, ⟨"at"⟩, ⟨200, ""⟩, ⟨200, ""⟩, ⟨413, "too large"⟩,
          "abc", ⟨200, ""⟩, ⟨200, ""⟩⟩).status = 500
    ∧ (uploadTranslate ⟨some "id", some "secret", some "Bucket", "US"⟩
        (some "model.rvt") 7
        ⟨⟨200, "tok"⟩, ⟨"at"⟩, ⟨200, ""⟩, ⟨200, ""⟩, ⟨413, "too large"⟩,
          "abc", ⟨200, ""⟩, ⟨200, ""⟩⟩).body =
      RespBody.jsonError "Upload failed: 413 too large" := by
  have h1 := (c2_amended_error_rendering
    ⟨some "id", some "secret", some "Bucket", "US"⟩ "model.rvt" 7
    ⟨⟨401, "bad creds"⟩, ⟨"at"⟩, ⟨200, ""⟩, ⟨200, ""⟩, ⟨200, ""⟩, "abc",
      ⟨200, ""⟩, ⟨200, ""⟩⟩ (by decide)).1 (by decide)
  have h2 := (c2_amended_error_rendering
    ⟨some "id", some "secret", some "Bucket", "US"⟩ "model.rvt" 7
    ⟨⟨200, "tok"⟩, ⟨"at"⟩, ⟨200, ""⟩, ⟨200, ""⟩, ⟨413, "too large"⟩, "abc",
      ⟨200, ""⟩, ⟨200, ""⟩⟩ (by decide)).2.2.2.1 (by decide)
    (Or.inl (by decide)) (by decide)
  exact ⟨h1.trans (by decide), h2.1, h2.2.trans (by decide)⟩

/-- C5: for every combination of missing required configuration values,
the token endpoint answers HTTP 500 with an error message listing every
missing name, and performs no upstream call. -/
theorem c5_missing_config_token_endpoint (cfg : Config) (st : Stubs)
    (h : missingNames cfg ≠ []) :
    tokenEndpoint cfg st =
      ⟨500, RespBody.jsonError (missingEnvMessage cfg), []⟩
    ∧ ∀ n ∈ missingNames cfg, n.data <:+: (missingEnvMessage cfg).data := by
  constructor
  · have hpos : 0 < (missingNames cfg).length := List.length_pos.mpr h
    simp [tokenEndpoint, getAccessToken, requireEnvCheck, hpos, renderError,
      jsStatusOr500]
  · cases ha : falsy cfg.clientId <;> cases hb : falsy cfg.clientSecret <;>
      cases hc : falsy cfg.bucketKey <;>
      simp [missingNames, missingEnvMessage, ha, hb, hc] <;> decide

/-- C5 witness: with all three required values missing, the endpoint
answers 500, the message lists all three names, and no call is made. -/
theorem c5_missing_config_token_endpoint_witness :
    tokenEndpoint ⟨none, some "", none, "US"⟩
        ⟨⟨200, "tok"⟩, ⟨"at"⟩, ⟨200, ""⟩, ⟨200, ""⟩, ⟨200, ""⟩, "abc",
          ⟨200, ""⟩, ⟨200, ""⟩⟩ =
      ⟨500, RespBody.jsonError
        "Missing env vars: APS_CLIENT_ID, APS_CLIENT_SECRET, APS_BUCKET_KEY",
        []⟩
    ∧ ("APS_CLIENT_SECRET".data <:+:
        (missingEnvMessage ⟨none, some "", none, "US"⟩).data) := by
  have h := c5_missing_config_token_endpoint ⟨none, some "", none, "US"⟩
    ⟨⟨200, "tok"⟩, ⟨"at"⟩, ⟨200, ""⟩, ⟨200, ""⟩, ⟨200, ""⟩, "abc",
      ⟨200, ""⟩, ⟨200, ""⟩⟩ (by decide)
  exact ⟨h.1.trans (by decide), h.2 "APS_CLIENT_SECRET" (by decide)⟩

/-- Helper: the head of a dropWhile result never satisfies the dropped
predicate. -/
theorem dropWhile_head_false {α : Type} (p : α → Bool) :
    ∀ (l : List α) (c : α), (l.dropWhile p).head? = some c → p c = false := by
  intro l
  induction l with
  | nil =>
    intro c h
    simp at h
  | cons x xs ih =>
    intro c h
    rw [List.dropWhile_cons] at h
    cases hx : p x with
    | true =>
      rw [hx] at h
      simp only [if_true] at h
      exact ih c h
    | false =>
      rw [hx] at h
      simp only [Bool.false_eq_true, if_false, List.head?_cons,
        Option.some.injEq] at h
      rw [← h]
      exact hx

/-- Helper: dropWhile only removes from the front, so when the result is
nonempty its last element is the last element of the input. -/
theorem dropWhile_getLast_eq {α : Type} (p : α → Bool) :
    ∀ (l : List α), l.dropWhile p ≠ [] →
      (l.dropWhile p).getLast? = l.getLast? := by
  intro l
  induction l with
  | nil =>
    intro h
    simp at h
  | cons x xs ih =>
    intro h
    rw [List.dropWhile_cons] at h ⊢
    cases hx : p x with
    | false =>
      simp
    | true =>
      rw [hx] at h
      simp only [if_true] at h ⊢
      have hxs : xs ≠ [] := by
        intro hh
        rw [hh] at h
        simp at h
      rcases xs with _ | ⟨y, ys⟩
      · exact absurd rfl hxs
      · rw [List.getLast?_cons_cons]
        exact ih h

/-- Helper: splitOnComma always produces at least one piece. -/
theorem splitOnComma_ne_nil : ∀ l : List Char, splitOnComma l ≠ [] := by
  intro l
  induction l with
  | nil => simp [splitOnComma]
  | cons c cs ih =>
    rw [splitOnComma]
    rcases hsp : splitOnComma cs with _ | ⟨p, ps⟩
    · exact absurd hsp ih
    · simp only [hsp]
      by_cases hc : c = ','
      · simp [hc]
      · simp [hc]

/-- Helper: every character of every piece of splitOnComma comes from the
input and is not a comma. -/
theorem mem_splitOnComma :
    ∀ (l p : List Char) (c : Char),
      p ∈ splitOnComma l → c ∈ p → c ∈ l ∧ c ≠ ',' := by
  intro l
  induction l with
  | nil =>
    intro p c hp hc
    simp [splitOnComma] at hp
    subst hp
    simp at hc
  | cons x xs ih =>
    intro p c hp hc
    rw [splitOnComma] at hp
    rcases hq : splitOnComma xs with _ | ⟨q, qs⟩
    · exact absurd hq (splitOnComma_ne_nil xs)
    · simp only [hq] at hp
      by_cases hx : x = ','
      · rw [if_pos hx] at hp
        rcases List.mem_cons.mp hp with rfl | hp
        · simp at hc
        · have hres := ih p c (by rw [hq]; exact hp) hc
          exact ⟨List.mem_cons_of_mem x hres.1, hres.2⟩
      · rw [if_neg hx] at hp
        rcases List.mem_cons.mp hp with rfl | hp
        · rcases List.mem_cons.mp hc with rfl | hc
          · exact ⟨List.mem_cons_self c xs, fun hh => hx hh⟩
          · have hres := ih q c (by rw [hq]; exact List.mem_cons_self q qs) hc
            exact ⟨List.mem_cons_of_mem x hres.1, hres.2⟩
        · have hres := ih p c (by rw [hq]; exact List.mem_cons_of_mem q hp) hc
          exact ⟨List.mem_cons_of_mem x hres.1, hres.2⟩

/-- Helper: the first character of a trimmed list is not whitespace. -/
theorem trimChars_head_not_ws (l : List Char) (c : Char)
    (h : (trimChars l).head? = some c) : jsWhitespace c = false := by
  unfold trimChars at h
  rw [List.head?_reverse] at h
  have hbne : (l.dropWhile jsWhitespace).reverse.dropWhile jsWhitespace ≠ [] := by
    intro hh
    rw [hh] at h
    simp at h
  rw [dropWhile_getLast_eq jsWhitespace _ hbne, List.getLast?_reverse] at h
  exact dropWhile_head_false jsWhitespace l c h

/-- Helper: the last character of a trimmed list is not whitespace. -/
theorem trimChars_getLast_not_ws (l : List Char) (c : Char)
    (h : (trimChars l).getLast? = some c) : jsWhitespace c = false := by
  unfold trimChars at h
  rw [List.getLast?_reverse] at h
  exact dropWhile_head_false jsWhitespace _ c h

/-- Helper: trimming a list of pure whitespace leaves nothing. -/
theorem trimChars_nil_of_all_ws (l : List Char)
    (h : ∀ c ∈ l, jsWhitespace c = true) : trimChars l = [] := by
  have h1 : l.dropWhile jsWhitespace = [] :=
    List.dropWhile_eq_nil_iff.mpr (fun x hx => h x hx)
  unfold trimChars
  rw [h1]
  simp

/-- C10: every entry produced by parsing the allowed-origins configuration
is nonempty and carries no leading or trailing whitespace; and a
configuration made only of commas and whitespace parses to the empty
allow-list, under which the cors origin callback accepts every origin. -/
theorem c10_parse_allowed_origins (s : String) :
    (∀ e ∈ parseAllowedOrigins s, e ≠ "" ∧
      (∀ c, e.data.head? = some c → jsWhitespace c = false) ∧
      (∀ c, e.data.getLast? = some c → jsWhitespace c = false))
    ∧ ((∀ c ∈ s.data, c = ',' ∨ jsWhitespace c = true) →
      parseAllowedOrigins s = [] ∧
      ∀ o, corsOriginCheck (parseAllowedOrigins s) o = CorsDecision.accept) := by
  constructor
  · intro e he
    unfold parseAllowedOrigins at he
    rw [List.mem_filter] at he
    obtain ⟨hmem, hne⟩ := he
    rw [List.mem_map] at hmem
    obtain ⟨p, hp, rfl⟩ := hmem
    refine ⟨by simpa using hne, ?_, ?_⟩
    · intro c hc
      exact trimChars_head_not_ws p c hc
    · intro c hc
      exact trimChars_getLast_not_ws p c hc
  · intro hws
    have hnil : parseAllowedOrigins s = [] := by
      unfold parseAllowedOrigins
      rw [List.filter_eq_nil_iff]
      intro a ha
      rw [List.mem_map] at ha
      obtain ⟨p, hp, rfl⟩ := ha
      have hall : ∀ c ∈ p, jsWhitespace c = true := by
        intro c hc
        have hm := mem_splitOnComma s.data p c hp hc
        rcases hws c hm.1 with h1 | h1
        · exact absurd h1 hm.2
        · exact h1
      simp [trimChars_nil_of_all_ws p hall]
    refine ⟨hnil, ?_⟩
    intro o
    rw [hnil]
    simp [corsOriginCheck]

/-- C10 witness: a configuration of commas and spaces parses to the empty
allow-list and a foreign origin is accepted; a real entry is nonempty. -/
theorem c10_parse_allowed_origins_witness :
    parseAllowedOrigins " , ,  ," = []
    ∧ corsOriginCheck (parseAllowedOrigins " , ,  ,")
        (some "http://a.example") = CorsDecision.accept
    ∧ ("a" : String) ≠ "" := by
  have h2 := (c10_parse_allowed_origins " , ,  ,").2 (by decide)
  have h3 := (c10_parse_allowed_origins " a ,b ").1 "a" (by decide)
  exact ⟨h2.1, h2.2 (some "http://a.example"), h3.1⟩

/-- Helper: digitChar of a value below ten is a decimal digit character. -/
theorem digitChar_isDigit (m : Nat) (h : m < 10) :
    (Nat.digitChar m).isDigit = true := by
  interval_cases m <;> decide

/-- Helper: digitChar of a value below ten has code point value plus 48. -/
theorem digitChar_toNat (m : Nat) (h : m < 10) :
    (Nat.digitChar m).toNat = m + 48 := by
  interval_cases m <;> decide

/-- Helper: the digit string of a number is never empty. -/
theorem natChars_ne_nil (n : Nat) : natChars n ≠ [] := by
  rw [natChars]
  by_cases h : n < 10
  · simp [h]
  · simp [h]

/-- Helper: every character of the digit string is a decimal digit. -/
theorem natChars_all_digits (n : Nat) :
    ∀ c ∈ natChars n, c.isDigit = true := by
  induction n using Nat.strong_induction_on with
  | _ n ih =>
    intro c hc
    rw [natChars] at hc
    by_cases h : n < 10
    · rw [dif_pos h] at hc
      simp only [List.mem_singleton] at hc
      subst hc
      exact digitChar_isDigit n h
    · rw [dif_neg h] at hc
      rcases List.mem_append.mp hc with h1 | h1
      · exact ih (n / 10) (Nat.div_lt_self (by omega) (by omega)) c h1
      · simp only [List.mem_singleton] at h1
        subst h1
        exact digitChar_isDigit (n % 10) (Nat.mod_lt n (by omega))

/-- Helper: folding the decimal-read step over a digit string recovers the
number (with the accumulator shifted by the string's length). -/
theorem foldl_natChars (n : Nat) :
    ∀ a, List.foldl decValStep a (natChars n) =
      a * 10 ^ (natChars n).length + n := by
  induction n using Nat.strong_induction_on with
  | _ n ih =>
    intro a
    rw [natChars]
    by_cases h : n < 10
    · rw [dif_pos h]
      simp only [List.foldl_cons, List.foldl_nil, List.length_singleton,
        pow_one, decValStep, digitChar_toNat n h]
      omega
    · rw [dif_neg h]
      rw [List.foldl_append]
      simp only [List.foldl_cons, List.foldl_nil, List.length_append,
        List.length_singleton]
      rw [ih (n / 10) (Nat.div_lt_self (by omega) (by omega)) a]
      simp only [decValStep, digitChar_toNat (n % 10) (Nat.mod_lt n (by omega))]
      have hp : 10 ^ ((natChars (n / 10)).length + 1) =
          10 ^ (natChars (n / 10)).length * 10 := pow_succ 10 _
      rw [hp]
      have hdm : n / 10 * 10 + n % 10 = n := by omega
      ring_nf
      omega

/-- Helper: the decimal digit string determines the number. -/
theorem natChars_inj (m n : Nat) (h : natChars m = natChars n) : m = n := by
  have hm := foldl_natChars m 0
  have hn := foldl_natChars n 0
  rw [h] at hm
  rw [hm] at hn
  omega

/-- Helper: the core digit printer with adequate fuel produces the digit
string in front of the accumulator. -/
theorem toDigitsCore_eq_natChars :
    ∀ (fuel n : Nat) (acc : List Char), n < 10 ^ (fuel + 1) →
      Nat.toDigitsCore 10 (fuel + 1) n acc = natChars n ++ acc := by
  intro fuel
  induction fuel with
  | zero =>
    intro n acc h
    have h10 : n < 10 := by simpa using h
    have hdiv : n / 10 = 0 := Nat.div_eq_of_lt h10
    have hmod : n % 10 = n := Nat.mod_eq_of_lt h10
    simp only [Nat.toDigitsCore, hdiv, hmod, if_true]
    rw [natChars, dif_pos h10]
    simp
  | succ fuel ih =>
    intro n acc h
    by_cases h10 : n < 10
    · have hdiv : n / 10 = 0 := Nat.div_eq_of_lt h10
      have hmod : n % 10 = n := Nat.mod_eq_of_lt h10
      simp only [Nat.toDigitsCore, hdiv, hmod, if_true]
      rw [natChars, dif_pos h10]
      simp
    · have hdiv : ¬ n / 10 = 0 := by omega
      rw [show Nat.toDigitsCore 10 (fuel + 1 + 1) n acc =
          if n / 10 = 0 then Nat.digitChar (n % 10) :: acc
          else Nat.toDigitsCore 10 (fuel + 1) (n / 10)
            (Nat.digitChar (n % 10) :: acc) from rfl]
      rw [if_neg hdiv]
      have hlt : n / 10 < 10 ^ (fuel + 1) := by
        rw [Nat.div_lt_iff_lt_mul (by omega : 0 < 10)]
        calc n < 10 ^ (fuel + 1 + 1) := h
          _ = 10 ^ (fuel + 1) * 10 := pow_succ 10 _
      rw [ih (n / 10) (Nat.digitChar (n % 10) :: acc) hlt]
      conv_rhs => rw [natChars]
      rw [dif_neg h10]
      simp

/-- Helper: the characters of Nat.repr are the decimal digit string. -/
theorem repr_data_eq_natChars (n : Nat) : (Nat.repr n).data = natChars n := by
  have h : n < 10 ^ (n + 1) :=
    lt_of_lt_of_le (Nat.lt_pow_self (by omega) n)
      (Nat.pow_le_pow_right (by omega) (by omega))
  show (Nat.toDigits 10 n).asString.data = natChars n
  rw [show Nat.toDigits 10 n = Nat.toDigitsCore 10 (n + 1) n [] from rfl]
  rw [toDigitsCore_eq_natChars n n [] h]
  simp [List.asString]

/-- Helper: toString on Nat is Nat.repr. -/
theorem toStringNat_data (n : Nat) : (toString n).data = natChars n :=
  repr_data_eq_natChars n

/-- Helper: takeWhile and drop on an all-true block followed by a false
element split the list exactly at that element. -/
theorem takeWhile_append_block {α : Type} (p : α → Bool) (a : List α)
    (x : α) (t : List α) (ha : ∀ c ∈ a, p c = true) (hx : p x = false) :
    (a ++ x :: t).takeWhile p = a ∧ (a ++ x :: t).drop a.length = x :: t := by
  constructor
  · induction a with
    | nil =>
      simp [List.takeWhile_cons, hx]
    | cons c cs ih =>
      have hc : p c = true := ha c (List.mem_cons_self c cs)
      simp only [List.cons_append, List.takeWhile_cons, hc, if_true,
        List.cons.injEq, true_and]
      exact ih (fun d hd => ha d (List.mem_cons_of_mem c hd))
  · exact List.drop_left a (x :: t)

/-- Helper: the character data of a stored object name is the digit string
of the timestamp, a dash, and the sanitized filename characters. -/
theorem mkObjectName_data (now : Nat) (name : String) :
    (mkObjectName now name).data =
      natChars now ++ ('-' :: (sanitizeName name).data) := by
  unfold mkObjectName
  rw [String.data_append, String.data_append, toStringNat_data]
  rw [List.append_assoc]
  rfl

/-- Helper: every character of a sanitized name is in the allowed class. -/
theorem sanitize_chars_allowed (name : String) :
    ∀ c ∈ (sanitizeName name).data, isAllowedChar c = true := by
  intro c hc
  rcases List.mem_map.mp hc with ⟨d, _, rfl⟩
  by_cases h : isAllowedChar d
  · rw [if_pos h]
    exact h
  · rw [if_neg h]
    decide

/-- Helper: a string with empty character data is the empty string. -/
theorem string_eq_empty_of_data_nil (s : String) (h : s.data = []) :
    s = "" := by
  cases s
  simp_all

/-- C4 counterexample: the empty filename sanitizes to nothing, so the
stored object name is just the timestamp and a dash, which does not match
the pattern (the character class after the dash requires at least one
character); hence the pattern part of the claim fails for the empty
filename. -/
theorem c4_counterexample :
    mkObjectName 999 "" = "999-"
    ∧ objectNamePattern (mkObjectName 999 "").data = false := by
  decide

/-- C4 (amended): sanitization preserves length and replaces exactly the
characters outside the allowed class with underscores; for every nonempty
filename the stored object name matches the digits-dash-allowed pattern;
and different timestamps always yield distinct object names for the same
filename. -/
theorem c4_amended_object_name (name : String) (now n1 n2 : Nat) :
    ((sanitizeName name).data.length = name.data.length
      ∧ ∀ (i : Nat) (c : Char), name.data[i]? = some c →
          (sanitizeName name).data[i]? =
            some (if isAllowedChar c then c else '_'))
    ∧ (name ≠ "" → objectNamePattern (mkObjectName now name).data = true)
    ∧ (n1 ≠ n2 → mkObjectName n1 name ≠ mkObjectName n2 name) := by
  refine ⟨⟨?_, ?_⟩, ?_, ?_⟩
  · simp [sanitizeName]
  · intro i c h
    have hdata : (sanitizeName name).data =
        name.data.map (fun c => if isAllowedChar c then c else '_') := rfl
    rw [hdata, List.getElem?_map, h]
    rfl
  · intro hname
    have htw := takeWhile_append_block Char.isDigit (natChars now) '-'
      ((sanitizeName name).data) (natChars_all_digits now) rfl
    have hsne : (sanitizeName name).data ≠ [] := by
      intro hh
      apply hname
      have hmap : name.data.map (fun c => if isAllowedChar c then c else '_') =
          [] := hh
      exact string_eq_empty_of_data_nil name (List.map_eq_nil_iff.mp hmap)
    rw [mkObjectName_data]
    unfold objectNamePattern
    rw [htw.1, htw.2]
    simp only [Bool.and_eq_true, Bool.not_eq_eq_eq_not, Bool.not_true,
      beq_self_eq_true, List.all_eq_true, true_and]
    refine ⟨⟨?_, ?_⟩, ?_⟩
    · simpa [List.isEmpty_iff] using natChars_ne_nil now
    · simpa [List.isEmpty_iff] using hsne
    · exact sanitize_chars_allowed name
  · intro hne heq
    apply hne
    have h1 := congrArg String.data heq
    rw [mkObjectName_data, mkObjectName_data] at h1
    have t1 := takeWhile_append_block Char.isDigit (natChars n1) '-'
      ((sanitizeName name).data) (natChars_all_digits n1) rfl
    have t2 := takeWhile_append_block Char.isDigit (natChars n2) '-'
      ((sanitizeName name).data) (natChars_all_digits n2) rfl
    have hch : natChars n1 = natChars n2 := by
      rw [← t1.1, ← t2.1, h1]
    exact natChars_inj n1 n2 hch

/-- C4 witness: a concrete filename with spaces and parentheses; its third
character (a space) becomes an underscore, the object name matches the
pattern, and timestamps 1 and 2 give different names. -/
theorem c4_amended_object_name_witness :
    (sanitizeName "My File (v2).rvt").data[2]? = some '_'
    ∧ objectNamePattern (mkObjectName 7 "My File (v2).rvt").data = true
    ∧ mkObjectName 1 "My File (v2).rvt" ≠ mkObjectName 2 "My File (v2).rvt" := by
  refine ⟨?_, ?_, ?_⟩
  · have h := ((c4_amended_object_name "My File (v2).rvt" 7 1 2).1).2 2 ' '
      (by decide)
    simpa using h
  · exact ((c4_amended_object_name "My File (v2).rvt" 7 1 2).2.1)
      (by decide)
  · exact ((c4_amended_object_name "My File (v2).rvt" 7 1 2).2.2)
      (by decide)

end EdpServer
